import Mathlib

/-! Shallow embedding of `src/changesets/backfiller.py` (and the thin Flask/CLI
shells around it) from the `osm-changes` repository.

Conventions of the embedding:
* timestamps (Python `datetime`) are modelled as `Int`, compared with `≤` as in
  the source;
* latitudes/longitudes are opaque passthrough values, modelled as `Int` (the
  code never computes with them, it only copies them);
* the process-wide `pyosm.api.Api` singleton `a` becomes an explicit `Api`
  record of query functions, passed to every function that uses it;
* Python code that can raise (`None.attr` accesses, upstream `NotFound`)
  is modelled with `Option`: `none` is an aborted computation;
* Python `OrderedDict` outputs become records whose optional keys are
  `Option` fields (`none` = key absent).
-/

namespace Osm

structure Tag where
  key : String
  value : String
  deriving DecidableEq, Inhabited

/-- A `pyosm.model.Node` historical version. -/
structure Node where
  id : Int
  version : Int
  timestamp : Int
  changeset : Int
  visible : Bool
  user : String
  uid : Int
  tags : List Tag
  lat : Int
  lon : Int
  deriving DecidableEq, Inhabited

/-- A `pyosm.model.Way` historical version; `nds` is the ordered node-id list. -/
structure Way where
  id : Int
  version : Int
  timestamp : Int
  changeset : Int
  visible : Bool
  user : String
  uid : Int
  tags : List Tag
  nds : List Int
  deriving DecidableEq, Inhabited

/-- One member entry of a relation: `{type, ref, role}`. -/
structure Member where
  type : String
  ref : Int
  role : String
  deriving DecidableEq, Inhabited

/-- A `pyosm.model.Relation` historical version. -/
structure Relation where
  id : Int
  version : Int
  timestamp : Int
  changeset : Int
  visible : Bool
  user : String
  uid : Int
  tags : List Tag
  members : List Member
  deriving DecidableEq, Inhabited

/-- Changeset metadata as returned by `a.get_changeset_metadata`.
The source field named `open` (a Lean keyword) is written `isOpen`. -/
structure ChangesetMeta where
  id : Int
  user : String
  uid : Int
  created_at : Int
  closed_at : Int
  isOpen : Bool
  min_lat : Int
  min_lon : Int
  max_lat : Int
  max_lon : Int
  tags : List Tag
  deriving DecidableEq, Inhabited

/-- The tagged union of the three OSM model classes, as dispatched on by
`isinstance` checks in the source. -/
inductive OsmThing where
  | node : Node → OsmThing
  | way : Way → OsmThing
  | relation : Relation → OsmThing
  deriving DecidableEq, Inhabited

def OsmThing.id : OsmThing → Int
  | .node n => n.id
  | .way w => w.id
  | .relation r => r.id

def OsmThing.version : OsmThing → Int
  | .node n => n.version
  | .way w => w.version
  | .relation r => r.version

/-- The remote store client (`pyosm.api.Api`): histories are ordered lists,
point lookups are fallible. -/
structure Api where
  get_node_history : Int → List Node
  get_way_history : Int → List Way
  get_node : Int → Int → Option Node
  get_way : Int → Int → Option Way
  get_relation : Int → Int → Option Relation
  get_changeset_metadata : Int → Option ChangesetMeta
  get_changeset_download : Int → Option (List (String × OsmThing))

/-- The scanning loop shared verbatim by `node_version_at_time` and
`way_version_at_time`: walk the history in order, remember the last version
whose timestamp is `≤ ts`, and break at the first version whose timestamp
exceeds `ts`. -/
def version_scan {α : Type} (tsOf : α → Int) (ts : Int) :
    List α → Option α → Option α
  | [], version_to_use => version_to_use
  | version :: rest, version_to_use =>
    if tsOf version ≤ ts then version_scan tsOf ts rest (some version)
    else version_to_use

/-- Function `node_version_at_time(node_id, ts)` from the source. -/
def node_version_at_time (a : Api) (node_id : Int) (ts : Int) : Option Node :=
  version_scan (fun v => v.timestamp) ts (a.get_node_history node_id) none

/-- Function `way_version_at_time(way_id, ts)` from the source. -/
def way_version_at_time (a : Api) (way_id : Int) (ts : Int) : Option Way :=
  version_scan (fun v => v.timestamp) ts (a.get_way_history way_id) none

/-- The shape shared by every Python `for` loop in the source that builds an
output list and aborts (raises) as soon as one element's computation fails:
apply `f` to each element in order, stopping at the first `none`. -/
def mapOpt {α β : Type} (f : α → Option β) : List α → Option (List β)
  | [] => some []
  | x :: rest => (f x).bind fun y => (mapOpt f rest).map fun ys => y :: ys

/-! Section: the JSON backfiller `get_osm_object` and its helpers. -/

/-- The `OrderedDict` built by `get_osm_object`.  The keys `lat`/`lon`
(nodes) and `nodes`/`geometry` (ways) are only added for the corresponding
entity kind, hence `Option` fields.  The `tags` dict is modelled as the
association list of (key, value) pairs.  The relation branch of the source
would add a `members` key, but it raises before returning (see
`get_osm_object` below), so no returned value ever carries members and no
field models them. -/
structure OsmOutput where
  id : Int
  version : Int
  timestamp : Int
  changeset : Int
  visible : Bool
  user : String
  uid : Int
  tags : List (String × String)
  lat : Option Int
  lon : Option Int
  nodes : Option (List Int)
  geometry : Option (List (Int × Int))
  deriving DecidableEq, Inhabited

/-- The inner closure `get_geom_at_timestamp(nodes, timestamp)` of
`get_osm_object`: resolve each node id at `timestamp` and collect the
`(v.lon, v.lat)` pairs in order; a `None` resolution raises
(`v.lon` on `None`), aborting the whole computation. -/
def get_geom_at_timestamp (a : Api) (nodes : List Int) (timestamp : Int) :
    Option (List (Int × Int)) :=
  mapOpt (fun nd => (node_version_at_time a nd timestamp).map fun v => (v.lon, v.lat))
    nodes

/-- Function `get_osm_object(typ, id, version)` from the source: `typ` is only used
for `isinstance` dispatch; the entity is re-fetched by `(id, version)`.

The relation branch (source lines 163-177) accesses the fetched pyosm model
object with string subscripts — `data['members']`, `member['type']`,
`member['ref']`, `member['role']`, `data['timestamp']` — although pyosm
model objects are immutable named tuples that only support attribute access
(the very same objects are accessed as `thing.members`, `member.type`,
`data.timestamp` elsewhere in the file); the first such subscript,
`data['members']` at line 165, raises `TypeError` before any member is
processed.  Additionally `way['nodes']` at line 174 names a key that does
not exist under any object model: the way node-list field is `nds` (used as
`.nds` at lines 92, 115 and 161).  The branch therefore aborts for every
successfully fetched relation and never returns; it is modelled as the
fetch followed by an unconditional failure. -/
def get_osm_object (a : Api) (typ : OsmThing) (id version : Int) :
    Option OsmOutput :=
  match typ with
  | .node _ =>
    (a.get_node id version).map fun data =>
      { id := data.id, version := data.version, timestamp := data.timestamp,
        changeset := data.changeset, visible := data.visible,
        user := data.user, uid := data.uid,
        tags := data.tags.map fun t => (t.key, t.value),
        lat := some data.lat, lon := some data.lon,
        nodes := none, geometry := none }
  | .way _ =>
    (a.get_way id version).bind fun data =>
      (get_geom_at_timestamp a data.nds data.timestamp).map fun geom =>
        { id := data.id, version := data.version, timestamp := data.timestamp,
          changeset := data.changeset, visible := data.visible,
          user := data.user, uid := data.uid,
          tags := data.tags.map fun t => (t.key, t.value),
          lat := none, lon := none,
          nodes := some data.nds, geometry := some geom }
  | .relation _ =>
    (a.get_relation id version).bind fun _ => none

/-! Section: the XML backfiller `thing_to_element`.

`thing_to_element` builds an `lxml` element tree.  Child elements appended to
the top element (`tag`, `nd`, `member`) never themselves have children, so
they are modelled as leaves.  Attribute dictionaries are modelled as ordered
association lists in insertion order.  `logger.warn` calls are collected in a
warnings list alongside the element. -/

structure XmlLeaf where
  name : String
  attrs : List (String × String)
  deriving DecidableEq, Inhabited

structure XmlElem where
  name : String
  attrs : List (String × String)
  children : List XmlLeaf
  deriving DecidableEq, Inhabited

/-- The leaf `etree.Element("tag", k=..., v=...)`. -/
def tag_leaf (t : Tag) : XmlLeaf :=
  { name := "tag", attrs := [("k", t.key), ("v", t.value)] }

/-- The attributes every `thing_elem` gets first: id, version, changeset,
user, uid, timestamp (`isoformat() + "Z"`, modelled as `toString ts ++ "Z"`). -/
def base_attrs (id version changeset : Int) (user : String) (uid : Int)
    (timestamp : Int) : List (String × String) :=
  [("id", toString id), ("version", toString version),
   ("changeset", toString changeset), ("user", user), ("uid", toString uid),
   ("timestamp", toString timestamp ++ "Z")]

/-- The `nd` leaf appended for one way node in `thing_to_element`. -/
def nd_leaf (nd : Int) (node_version : Node) : XmlLeaf :=
  { name := "nd",
    attrs := [("ref", toString nd), ("lat", toString node_version.lat),
              ("lon", toString node_version.lon)] }

/-- The per-member body of the relation loop in `thing_to_element`.  Returns
the extra `nd` leaves appended directly to the relation element (way members
only), the `member` leaf itself, and any warnings logged.  Node members are
resolved at the *relation*'s timestamp; way-member nodes are resolved at the
*way version's own* timestamp; relation members only log a warning. -/
def member_to_parts (a : Api) (thing_timestamp : Int) (member : Member) :
    Option (List XmlLeaf × XmlLeaf × List String) :=
  let base := [("type", member.type), ("ref", toString member.ref),
               ("role", member.role)]
  if member.type = "node" then
    (node_version_at_time a member.ref thing_timestamp).map fun node_version =>
      ([], { name := "member",
             attrs := base ++ [("lat", toString node_version.lat),
                               ("lon", toString node_version.lon)] }, [])
  else if member.type = "way" then
    (way_version_at_time a member.ref thing_timestamp).bind fun way_version =>
      (mapOpt (fun nd => (node_version_at_time a nd way_version.timestamp).map
          fun node_version => nd_leaf nd node_version) way_version.nds).map
        fun nd_leaves => (nd_leaves, { name := "member", attrs := base }, [])
  else if member.type = "relation" then
    some ([], { name := "member", attrs := base },
          ["Not fetching relation parts for member relation"])
  else
    some ([], { name := "member", attrs := base }, [])

/-- Function `thing_to_element(thing)` from the source, paired with the warnings it
logs.  The Python truthiness test `if thing.lat:` means a zero coordinate is
omitted from a node's attributes. -/
def thing_to_element (a : Api) (thing : OsmThing) : Option (XmlElem × List String) :=
  match thing with
  | .node n =>
    some ({ name := "node",
            attrs := base_attrs n.id n.version n.changeset n.user n.uid n.timestamp
              ++ (if n.lat ≠ 0 then [("lat", toString n.lat)] else [])
              ++ (if n.lon ≠ 0 then [("lon", toString n.lon)] else []),
            children := n.tags.map tag_leaf }, [])
  | .way w =>
    (mapOpt (fun nd => (node_version_at_time a nd w.timestamp).map
        fun node_version => nd_leaf nd node_version) w.nds).map fun nd_leaves =>
      ({ name := "way",
         attrs := base_attrs w.id w.version w.changeset w.user w.uid w.timestamp,
         children := w.tags.map tag_leaf ++ nd_leaves }, [])
  | .relation r =>
    (mapOpt (member_to_parts a r.timestamp) r.members).map fun parts =>
      ({ name := "relation",
         attrs := base_attrs r.id r.version r.changeset r.user r.uid r.timestamp,
         children := r.tags.map tag_leaf
           ++ (parts.map fun p => p.1 ++ [p.2.1]).flatten },
       (parts.map fun p => p.2.2).flatten)

/-! Section: the changeset assembler `process_changeset` and the CLI shell. -/

/-- The fixed `meta` block of the output document. -/
structure MetaInfo where
  version : String
  generator : String
  copyright : String
  deriving DecidableEq, Inhabited

/-- One entry of the output `changes` list: an `OrderedDict` with an optional
`old` key and a mandatory `new` key. -/
structure Change where
  old : Option OsmOutput
  new : OsmOutput
  deriving DecidableEq, Inhabited

structure ChangesetResult where
  meta : MetaInfo
  changeset : ChangesetMeta
  changes : List Change
  deriving DecidableEq, Inhabited

/-- The body of the `for verb, obj in changeset_changes` loop in
`process_changeset`: `old` is fetched first (at `obj.version - 1`) when the
verb is `modify` or `delete`, then `new` at `obj.version`; either fetch
failing aborts. -/
def process_one_change (a : Api) (verb : String) (obj : OsmThing) : Option Change :=
  if verb = "modify" ∨ verb = "delete" then
    (get_osm_object a obj obj.id (obj.version - 1)).bind fun old_obj =>
      (get_osm_object a obj obj.id obj.version).map fun new_obj =>
        { old := some old_obj, new := new_obj }
  else
    (get_osm_object a obj obj.id obj.version).map fun new_obj =>
      { old := none, new := new_obj }

/-- Function `process_changeset(changeset_id)` from the source. -/
def process_changeset (a : Api) (changeset_id : Int) : Option ChangesetResult :=
  (a.get_changeset_metadata changeset_id).bind fun changeset =>
    (a.get_changeset_download changeset_id).bind fun changeset_changes =>
      (mapOpt (fun c => process_one_change a c.1 c.2) changeset_changes).map
        fun changes =>
          { meta := { version := "0.6", generator := "pyosm",
                      copyright := "The data included in this document is from www.openstreetmap.org. The data is made available under ODbL." },
            changeset := changeset, changes := changes }

/-- The `__main__` block: run `process_changeset` first, and only on success
write the file `./{changeset_id}.json` with the result.  `none` models the
process terminating with a propagated failure and no file written. -/
def cli_main (a : Api) (changeset_id : Int) : Option (String × ChangesetResult) :=
  (process_changeset a changeset_id).map fun result =>
    ("./" ++ toString changeset_id ++ ".json", result)

/-- The Flask route `GET /changesets/<int:changeset_id>` from
`src/changesets/api.py`: serialize the result on success, propagate the
failure (error status, no partial body) otherwise. -/
def full_changeset (a : Api) (changeset_id : Int) : Option ChangesetResult :=
  process_changeset a changeset_id

/-! Section: concrete store instances used to exhibit witnesses and counterexamples. -/

def node1v1 : Node :=
  { id := 1, version := 1, timestamp := 10, changeset := 501, visible := true,
    user := "alice", uid := 7, tags := [], lat := 1, lon := 2 }

/-- A deletion version: `visible = false`. -/
def node1v2 : Node :=
  { id := 1, version := 2, timestamp := 50, changeset := 502, visible := false,
    user := "alice", uid := 7, tags := [], lat := 3, lon := 4 }

def node5v1 : Node :=
  { id := 5, version := 1, timestamp := 10, changeset := 503, visible := true,
    user := "bob", uid := 8, tags := [], lat := 10, lon := 20 }

/-- A node whose earliest version postdates every timestamp of interest. -/
def node7v1 : Node :=
  { id := 7, version := 1, timestamp := 200, changeset := 504, visible := true,
    user := "bob", uid := 8, tags := [], lat := 70, lon := 71 }

def node8v1 : Node :=
  { id := 8, version := 1, timestamp := 5, changeset := 505, visible := true,
    user := "carol", uid := 9, tags := [], lat := 11, lon := 12 }

def node8v2 : Node :=
  { id := 8, version := 2, timestamp := 50, changeset := 506, visible := true,
    user := "carol", uid := 9, tags := [], lat := 21, lon := 22 }

def way10v1 : Way :=
  { id := 10, version := 1, timestamp := 10, changeset := 507, visible := true,
    user := "dave", uid := 10, tags := [], nds := [8] }

def way11v1 : Way :=
  { id := 11, version := 1, timestamp := 20, changeset := 508, visible := true,
    user := "dave", uid := 10, tags := [], nds := [5] }

def way12v1 : Way :=
  { id := 12, version := 1, timestamp := 100, changeset := 509, visible := true,
    user := "dave", uid := 10, tags := [], nds := [7] }

def rel30v1 : Relation :=
  { id := 30, version := 1, timestamp := 100, changeset := 510, visible := true,
    user := "erin", uid := 11, tags := [],
    members := [{ type := "way", ref := 10, role := "outer" }] }

def rel31v1 : Relation :=
  { id := 31, version := 1, timestamp := 100, changeset := 511, visible := true,
    user := "erin", uid := 11, tags := [],
    members := [{ type := "relation", ref := 9, role := "x" },
                { type := "node", ref := 1, role := "y" }] }

def rel32v1 : Relation :=
  { id := 32, version := 1, timestamp := 100, changeset := 512, visible := true,
    user := "erin", uid := 11, tags := [],
    members := [{ type := "node", ref := 1, role := "pt" }] }

def meta97 : ChangesetMeta :=
  { id := 97, user := "alice", uid := 7, created_at := 1000, closed_at := 2000,
    isOpen := false, min_lat := 0, min_lon := 0, max_lat := 0, max_lon := 0,
    tags := [] }

def meta98 : ChangesetMeta :=
  { id := 98, user := "bob", uid := 8, created_at := 1000, closed_at := 2000,
    isOpen := false, min_lat := 0, min_lon := 0, max_lat := 0, max_lon := 0,
    tags := [] }

def meta99 : ChangesetMeta :=
  { id := 99, user := "carol", uid := 9, created_at := 1000, closed_at := 2000,
    isOpen := false, min_lat := 0, min_lon := 0, max_lat := 0, max_lon := 0,
    tags := [] }

/-- Concrete store exercising every code path of interest. -/
def api1 : Api :=
  { get_node_history := fun id =>
      if id = 1 then [node1v1, node1v2]
      else if id = 5 then [node5v1]
      else if id = 7 then [node7v1]
      else if id = 8 then [node8v1, node8v2]
      else [],
    get_way_history := fun id =>
      if id = 10 then [way10v1]
      else if id = 11 then [way11v1]
      else if id = 12 then [way12v1]
      else [],
    get_node := fun id version =>
      if id = 1 ∧ version = 1 then some node1v1
      else if id = 1 ∧ version = 2 then some node1v2
      else if id = 5 ∧ version = 1 then some node5v1
      else if id = 7 ∧ version = 1 then some node7v1
      else if id = 8 ∧ version = 1 then some node8v1
      else if id = 8 ∧ version = 2 then some node8v2
      else none,
    get_way := fun id version =>
      if id = 10 ∧ version = 1 then some way10v1
      else if id = 11 ∧ version = 1 then some way11v1
      else if id = 12 ∧ version = 1 then some way12v1
      else none,
    get_relation := fun id version =>
      if id = 30 ∧ version = 1 then some rel30v1
      else if id = 31 ∧ version = 1 then some rel31v1
      else if id = 32 ∧ version = 1 then some rel32v1
      else none,
    get_changeset_metadata := fun cid =>
      if cid = 97 then some meta97
      else if cid = 99 then some meta99
      else none,
    get_changeset_download := fun cid =>
      if cid = 97 then some [("create", OsmThing.node node5v1)]
      else if cid = 99 then some [("create", OsmThing.way way12v1)]
      else none }

/-- A node stub at version 1, as delivered in a changeset download. -/
def nodeD : Node :=
  { id := 400, version := 1, timestamp := 10, changeset := 513, visible := true,
    user := "frank", uid := 12, tags := [], lat := 0, lon := 0 }

/-- A store with no entity versions at all: every direct lookup fails, so in
particular no version below 1 exists (the well-formedness the claims assume
of the upstream store). -/
def api7 : Api :=
  { get_node_history := fun _ => [],
    get_way_history := fun _ => [],
    get_node := fun _ _ => none,
    get_way := fun _ _ => none,
    get_relation := fun _ _ => none,
    get_changeset_metadata := fun cid => if cid = 98 then some meta98 else none,
    get_changeset_download := fun cid =>
      if cid = 98 then some [("delete", OsmThing.node nodeD)] else none }

def out11 : OsmOutput :=
  (get_osm_object api1 (OsmThing.way way11v1) 11 1).getD default

def res97 : ChangesetResult :=
  (process_changeset api1 97).getD default


/-! Section: general lemmas about the loops of the source. -/

theorem version_scan_acc {α : Type} (tsOf : α → Int) (ts : Int) (l : List α)
    (acc : Option α) :
    version_scan tsOf ts l acc =
      match version_scan tsOf ts l none with
      | none => acc
      | some v => some v := by
  induction l generalizing acc with
  | nil => rfl
  | cons h t ih =>
    by_cases hh : tsOf h ≤ ts
    · simp only [version_scan, if_pos hh]
      rw [ih (some h)]
      cases version_scan tsOf ts t none <;> simp
    · simp only [version_scan, if_neg hh]

theorem version_scan_none_iff {α : Type} (tsOf : α → Int) (ts : Int)
    (l : List α) (hs : l.Pairwise (fun u v => tsOf u < tsOf v)) :
    version_scan tsOf ts l none = none ↔ ∀ v ∈ l, ts < tsOf v := by
  cases l with
  | nil => simp [version_scan]
  | cons h t =>
    by_cases hh : tsOf h ≤ ts
    · simp only [version_scan, if_pos hh]
      rw [version_scan_acc]
      constructor
      · intro hcontra
        cases hscan : version_scan tsOf ts t none <;> rw [hscan] at hcontra <;>
          simp at hcontra
      · intro hall
        exact absurd (hall h (List.mem_cons_self h t)) (not_lt.mpr hh)
    · simp only [version_scan, if_neg hh]
      have hhts : ts < tsOf h := lt_of_not_le hh
      constructor
      · intro _ v hv
        rcases List.mem_cons.mp hv with rfl | hvt
        · exact hhts
        · exact hhts.trans ((List.pairwise_cons.mp hs).1 v hvt)
      · intro _
        trivial

theorem version_scan_some {α : Type} (tsOf : α → Int) (ts : Int) :
    ∀ (l : List α), l.Pairwise (fun u v => tsOf u < tsOf v) →
    ∀ v, version_scan tsOf ts l none = some v →
      v ∈ l ∧ tsOf v ≤ ts ∧ ∀ w ∈ l, tsOf w ≤ ts → tsOf w ≤ tsOf v := by
  intro l
  induction l with
  | nil => intro _ v hv; simp [version_scan] at hv
  | cons h t ih =>
    intro hs v hv
    obtain ⟨hht, hst⟩ := List.pairwise_cons.mp hs
    by_cases hh : tsOf h ≤ ts
    · rw [version_scan, if_pos hh, version_scan_acc] at hv
      cases hscan : version_scan tsOf ts t none with
      | none =>
        rw [hscan] at hv
        simp only [Option.some.injEq] at hv
        subst hv
        refine ⟨List.mem_cons_self h t, hh, ?_⟩
        intro w hw hwts
        rcases List.mem_cons.mp hw with rfl | hwt
        · exact le_refl _
        · exact absurd hwts
            (not_le.mpr ((version_scan_none_iff tsOf ts t hst).mp hscan w hwt))
      | some u =>
        rw [hscan] at hv
        simp only [Option.some.injEq] at hv
        subst hv
        obtain ⟨hmem, hle, hmax⟩ := ih hst u hscan
        refine ⟨List.mem_cons_of_mem h hmem, hle, ?_⟩
        intro w hw hwts
        rcases List.mem_cons.mp hw with rfl | hwt
        · exact le_of_lt (hht u hmem)
        · exact hmax w hwt hwts
    · rw [version_scan, if_neg hh] at hv
      exact absurd hv (by simp)

theorem pairwise_ts_inj {α : Type} (tsOf : α → Int) :
    ∀ (l : List α), l.Pairwise (fun u v => tsOf u < tsOf v) →
    ∀ u ∈ l, ∀ v ∈ l, tsOf u = tsOf v → u = v := by
  intro l
  induction l with
  | nil => intro _ u hu; simp at hu
  | cons h t ih =>
    intro hs u hu v hv heq
    obtain ⟨hht, hst⟩ := List.pairwise_cons.mp hs
    rcases List.mem_cons.mp hu with rfl | hut
    · rcases List.mem_cons.mp hv with rfl | hvt
      · rfl
      · exact absurd heq (ne_of_lt (hht v hvt))
    · rcases List.mem_cons.mp hv with rfl | hvt
      · exact absurd heq.symm (ne_of_lt (hht u hut))
      · exact ih hst u hut v hvt heq

theorem version_scan_eq_of {α : Type} (tsOf : α → Int) (ts : Int)
    (l : List α) (hs : l.Pairwise (fun u v => tsOf u < tsOf v))
    (v : α) (hmem : v ∈ l) (hle : tsOf v ≤ ts)
    (hmax : ∀ w ∈ l, ¬ (tsOf v < tsOf w ∧ tsOf w ≤ ts)) :
    version_scan tsOf ts l none = some v := by
  cases hscan : version_scan tsOf ts l none with
  | none =>
    exact absurd hle
      (not_le.mpr ((version_scan_none_iff tsOf ts l hs).mp hscan v hmem))
  | some u =>
    obtain ⟨humem, hule, humax⟩ := version_scan_some tsOf ts l hs u hscan
    have huv : tsOf u ≤ tsOf v := by
      by_contra hcontra
      exact hmax u humem ⟨lt_of_not_le hcontra, hule⟩
    have hvu : tsOf v ≤ tsOf u := humax v hmem hle
    rw [pairwise_ts_inj tsOf l hs u humem v hmem (le_antisymm huv hvu)]

theorem mapOpt_length {α β : Type} (f : α → Option β) :
    ∀ (l : List α) (ys : List β), mapOpt f l = some ys → ys.length = l.length := by
  intro l
  induction l with
  | nil =>
    intro ys h
    simp only [mapOpt, Option.some.injEq] at h
    simp [← h]
  | cons x t ih =>
    intro ys h
    simp only [mapOpt] at h
    cases hf : f x with
    | none => rw [hf] at h; simp at h
    | some y =>
      rw [hf] at h
      cases ht : mapOpt f t with
      | none => rw [ht] at h; simp at h
      | some zs =>
        rw [ht] at h
        simp only [Option.some_bind, Option.map_some', Option.some.injEq] at h
        subst h
        simp [ih zs ht]

theorem mapOpt_get? {α β : Type} (f : α → Option β) :
    ∀ (l : List α) (ys : List β), mapOpt f l = some ys →
      ∀ i, ys.get? i = (l.get? i).bind f := by
  intro l
  induction l with
  | nil =>
    intro ys h i
    simp only [mapOpt, Option.some.injEq] at h
    simp [← h]
  | cons x t ih =>
    intro ys h i
    simp only [mapOpt] at h
    cases hf : f x with
    | none => rw [hf] at h; simp at h
    | some y =>
      rw [hf] at h
      cases ht : mapOpt f t with
      | none => rw [ht] at h; simp at h
      | some zs =>
        rw [ht] at h
        simp only [Option.some_bind, Option.map_some', Option.some.injEq] at h
        subst h
        cases i with
        | zero => simp [hf]
        | succ j => simpa using ih zs ht j

theorem mapOpt_eq_none {α β : Type} (f : α → Option β) {x : α} :
    ∀ (l : List α), x ∈ l → f x = none → mapOpt f l = none := by
  intro l
  induction l with
  | nil => intro hx; simp at hx
  | cons h t ih =>
    intro hx hfx
    rcases List.mem_cons.mp hx with rfl | hxt
    · simp [mapOpt, hfx]
    · cases hf : f h with
      | none => simp [mapOpt, hf]
      | some y => simp [mapOpt, hf, ih hxt hfx]

/-! Section: helper lemmas shared by several claims. -/

/-- A successful `get_geom_at_timestamp` run has one output pair per input
node id, in order, each pair being `(lon, lat)` of the resolved version. -/
theorem geom_pointwise (a : Api) (nds : List Int) (ts : Int)
    (g : List (Int × Int)) (hg : get_geom_at_timestamp a nds ts = some g) :
    g.length = nds.length
    ∧ ∀ i nd, nds.get? i = some nd →
        ∃ v, node_version_at_time a nd ts = some v ∧ g.get? i = some (v.lon, v.lat) := by
  have hlen := mapOpt_length _ _ _ hg
  refine ⟨hlen, ?_⟩
  intro i nd hnd
  have hp := mapOpt_get? _ _ _ hg i
  rw [hnd] at hp
  simp only [Option.some_bind] at hp
  cases hv : node_version_at_time a nd ts with
  | none =>
    rw [hv] at hp
    simp only [Option.map_none'] at hp
    obtain ⟨hi, -⟩ := List.get?_eq_some.mp hnd
    have hle : g.length ≤ i := List.get?_eq_none.mp hp
    omega
  | some v =>
    rw [hv] at hp
    exact ⟨v, rfl, by simpa using hp⟩

/-- A failed node resolution inside `get_geom_at_timestamp` aborts it. -/
theorem geom_fails (a : Api) (nds : List Int) (ts : Int) {nd : Int}
    (hnd : nd ∈ nds) (hres : node_version_at_time a nd ts = none) :
    get_geom_at_timestamp a nds ts = none := by
  apply mapOpt_eq_none _ _ hnd
  rw [hres]
  rfl

/-- The way branch of `get_osm_object`, spelled out. -/
theorem get_osm_object_way_eq (a : Api) (w : Way) (id version : Int)
    (data : Way) (hget : a.get_way id version = some data) :
    get_osm_object a (.way w) id version =
      (get_geom_at_timestamp a data.nds data.timestamp).map fun geom =>
        { id := data.id, version := data.version, timestamp := data.timestamp,
          changeset := data.changeset, visible := data.visible,
          user := data.user, uid := data.uid,
          tags := data.tags.map fun t => (t.key, t.value),
          lat := none, lon := none,
          nodes := some data.nds, geometry := some geom } := by
  unfold get_osm_object
  rw [hget]
  rfl

/-- The relation branch of `get_osm_object` fails for every store and every
input: the source raises `TypeError` at `data['members']` (a string
subscript on the immutable pyosm model object) before processing any
member, so a polygon backfill never returns a value. -/
theorem get_osm_object_relation_none (a : Api) (r : Relation)
    (id version : Int) :
    get_osm_object a (.relation r) id version = none := by
  unfold get_osm_object
  cases a.get_relation id version <;> rfl

/-- A change whose `new` fetch fails makes the whole loop body fail,
whatever the verb. -/
theorem process_one_change_none (a : Api) (verb : String) (obj : OsmThing)
    (hnew : get_osm_object a obj obj.id obj.version = none) :
    process_one_change a verb obj = none := by
  unfold process_one_change
  split
  · cases hold : get_osm_object a obj obj.id (obj.version - 1) with
    | none => rfl
    | some o => rw [hnew]; rfl
  · rw [hnew]; rfl

/-- On success, `process_changeset` returns exactly the list built by the
change loop, in order. -/
theorem process_changeset_changes (a : Api) (cid : Int)
    (changes : List (String × OsmThing)) (res : ChangesetResult)
    (hdl : a.get_changeset_download cid = some changes)
    (hres : process_changeset a cid = some res) :
    mapOpt (fun c => process_one_change a c.1 c.2) changes = some res.changes := by
  unfold process_changeset at hres
  cases hm : a.get_changeset_metadata cid with
  | none => rw [hm] at hres; exact absurd hres (by simp)
  | some m =>
    rw [hm] at hres
    simp only [Option.some_bind] at hres
    rw [hdl] at hres
    simp only [Option.some_bind] at hres
    cases hmo : mapOpt (fun c => process_one_change a c.1 c.2) changes with
    | none => rw [hmo] at hres; exact absurd hres (by simp)
    | some cs =>
      rw [hmo] at hres
      simp only [Option.map_some', Option.some.injEq] at hres
      rw [← hres]

/-- If the change loop fails, `process_changeset` fails. -/
theorem process_changeset_fail (a : Api) (cid : Int)
    (changes : List (String × OsmThing))
    (hdl : a.get_changeset_download cid = some changes)
    (hfail : mapOpt (fun c => process_one_change a c.1 c.2) changes = none) :
    process_changeset a cid = none := by
  unfold process_changeset
  cases hm : a.get_changeset_metadata cid with
  | none => rfl
  | some m => simp [hdl, hfail]

/-- Elementwise reading of a successful `process_changeset`: output position
`i` is produced from input position `i`. -/
theorem changes_pointwise (a : Api) (cid : Int)
    (changes : List (String × OsmThing)) (res : ChangesetResult)
    (hdl : a.get_changeset_download cid = some changes)
    (hres : process_changeset a cid = some res) :
    res.changes.length = changes.length
    ∧ ∀ i verb obj, changes.get? i = some (verb, obj) →
        ∃ c, res.changes.get? i = some c ∧ process_one_change a verb obj = some c := by
  have hmo := process_changeset_changes a cid changes res hdl hres
  have hlen := mapOpt_length _ _ _ hmo
  refine ⟨hlen, ?_⟩
  intro i verb obj hci
  have hp := mapOpt_get? _ _ _ hmo i
  rw [hci] at hp
  simp only [Option.some_bind] at hp
  cases hc : process_one_change a verb obj with
  | none =>
    rw [hc] at hp
    obtain ⟨hi, -⟩ := List.get?_eq_some.mp hci
    have hle : res.changes.length ≤ i := List.get?_eq_none.mp hp
    omega
  | some c =>
    rw [hc] at hp
    exact ⟨c, hp, rfl⟩

/-! Section: the claims. -/

/-- C1: for every entity id and target timestamp `ts`, the version resolvers
`node_version_at_time` / `way_version_at_time` return the unique version `v`
of the (strictly time-ordered) history with `v.timestamp ≤ ts` such that no
version `w` has `v.timestamp < w.timestamp ≤ ts`; the characterization refers
to timestamps only, so it holds irrespective of the returned version's
`visible` flag (a deletion version is still returned); if no version has
timestamp `≤ ts`, the result is `none` (NotFound). -/
theorem C1_version_resolution (a : Api) (node_id way_id ts : Int)
    (hn : (a.get_node_history node_id).Pairwise
      (fun u v => u.timestamp < v.timestamp))
    (hw : (a.get_way_history way_id).Pairwise
      (fun u v => u.timestamp < v.timestamp)) :
    (node_version_at_time a node_id ts = none ↔
      ∀ v ∈ a.get_node_history node_id, ts < v.timestamp)
    ∧ (∀ v, node_version_at_time a node_id ts = some v →
        v ∈ a.get_node_history node_id ∧ v.timestamp ≤ ts ∧
          ∀ w ∈ a.get_node_history node_id,
            w.timestamp ≤ ts → w.timestamp ≤ v.timestamp)
    ∧ (∀ v ∈ a.get_node_history node_id, v.timestamp ≤ ts →
        (∀ w ∈ a.get_node_history node_id,
          ¬ (v.timestamp < w.timestamp ∧ w.timestamp ≤ ts)) →
        node_version_at_time a node_id ts = some v)
    ∧ (way_version_at_time a way_id ts = none ↔
      ∀ v ∈ a.get_way_history way_id, ts < v.timestamp)
    ∧ (∀ v, way_version_at_time a way_id ts = some v →
        v ∈ a.get_way_history way_id ∧ v.timestamp ≤ ts ∧
          ∀ w ∈ a.get_way_history way_id,
            w.timestamp ≤ ts → w.timestamp ≤ v.timestamp)
    ∧ (∀ v ∈ a.get_way_history way_id, v.timestamp ≤ ts →
        (∀ w ∈ a.get_way_history way_id,
          ¬ (v.timestamp < w.timestamp ∧ w.timestamp ≤ ts)) →
        way_version_at_time a way_id ts = some v) := by
  refine ⟨?_, ?_, ?_, ?_, ?_, ?_⟩
  · exact version_scan_none_iff _ ts _ hn
  · exact version_scan_some _ ts _ hn
  · intro v hv hle hmax
    exact version_scan_eq_of _ ts _ hn v hv hle hmax
  · exact version_scan_none_iff _ ts _ hw
  · exact version_scan_some _ ts _ hw
  · intro v hv hle hmax
    exact version_scan_eq_of _ ts _ hw v hv hle hmax

/-- Witness for C1: on the concrete store, node 1 at timestamp 100 resolves
to its version 2 — a deletion version (`visible = false`) — and way 10
resolves to its only version; node 7, created at timestamp 200, resolves to
`none` at timestamp 100. -/
theorem C1_version_resolution_witness :
    (api1.get_node_history 1).Pairwise (fun u v => u.timestamp < v.timestamp)
    ∧ node_version_at_time api1 1 100 = some node1v2
    ∧ node1v2.visible = false
    ∧ way_version_at_time api1 10 100 = some way10v1
    ∧ node_version_at_time api1 7 100 = none := by
  refine ⟨by decide, ?_, by decide, ?_, ?_⟩
  · exact (C1_version_resolution api1 1 10 100 (by decide) (by decide)).2.2.1
      node1v2 (by decide) (by decide) (by decide)
  · exact (C1_version_resolution api1 1 10 100 (by decide) (by decide)).2.2.2.2.2
      way10v1 (by decide) (by decide) (by decide)
  · exact (C1_version_resolution api1 7 10 100 (by decide) (by decide)).1.mpr
      (by decide)

/-- Counterexample to C2 as stated.  Relation 30 (timestamp 100) has way 10
as its only member; the line and every one of its points are resolvable
(way 10 resolves at the polygon's timestamp to its version of timestamp 10,
whose single node 8 resolves at that version's own timestamp to coordinates
(lon 12, lat 11)) — yet the backfiller used for output, `get_osm_object`,
resolves nothing: it fails on every relation, raising `TypeError` at the
string subscript `data['members']` (line 165) before any member is
processed (and its way-member lookup `way['nodes']`, line 174, names a key
that does not exist, the field being `nds`).  No line member is ever
resolved at any timestamp on this path. -/
theorem C2_counterexample :
    api1.get_relation 30 1 = some rel30v1
    ∧ rel30v1.members = [{ type := "way", ref := 10, role := "outer" }]
    ∧ way_version_at_time api1 10 rel30v1.timestamp = some way10v1
    ∧ get_geom_at_timestamp api1 way10v1.nds way10v1.timestamp = some [(12, 11)]
    ∧ get_osm_object api1 (OsmThing.relation rel30v1) 30 1 = none := by
  decide

/-- C2 amended: the backfiller used for output, `get_osm_object` (called by
`process_changeset`), never resolves a polygon's way member at all — its
relation branch fails for every store and every input before producing
anything (`TypeError` from string-subscripting the immutable pyosm model at
`data['members']`, and the node-list key `way['nodes']` does not exist, the
field being `nds`).  Only the XML backfiller `thing_to_element`, which no
code path calls, behaves as the claim describes: it resolves the line
member at the polygon's timestamp and then resolves that line's own points
at the resolved line version's own timestamp. -/
theorem C2_member_resolution_timestamps (a : Api) (poly_ts : Int)
    (m : Member) (hty : m.type = "way") (way : Way)
    (hway : way_version_at_time a m.ref poly_ts = some way) :
    (∀ (r : Relation) (id version : Int),
        get_osm_object a (.relation r) id version = none)
    ∧ (∀ parts, member_to_parts a poly_ts m = some parts →
        parts.1.length = way.nds.length
        ∧ ∀ i nd, way.nds.get? i = some nd →
            ∃ v, node_version_at_time a nd way.timestamp = some v ∧
              parts.1.get? i = some (nd_leaf nd v)) := by
  constructor
  · intro r id version
    exact get_osm_object_relation_none a r id version
  · intro parts hparts
    unfold member_to_parts at hparts
    rw [hty] at hparts
    rw [if_neg (by decide : ¬ ("way" : String) = "node"), if_pos rfl,
      hway] at hparts
    simp only [Option.some_bind] at hparts
    cases hmap : mapOpt (fun nd => (node_version_at_time a nd way.timestamp).map
        fun node_version => nd_leaf nd node_version) way.nds with
    | none => rw [hmap] at hparts; exact absurd hparts (by simp)
    | some nd_leaves =>
      rw [hmap] at hparts
      simp only [Option.map_some', Option.some.injEq] at hparts
      have hfst : parts.1 = nd_leaves := by rw [← hparts]
      rw [hfst]
      refine ⟨mapOpt_length _ _ _ hmap, ?_⟩
      intro i nd hnd
      have hp := mapOpt_get? _ _ _ hmap i
      rw [hnd] at hp
      simp only [Option.some_bind] at hp
      cases hv : node_version_at_time a nd way.timestamp with
      | none =>
        rw [hv] at hp
        simp only [Option.map_none'] at hp
        obtain ⟨hi, -⟩ := List.get?_eq_some.mp hnd
        have hle := List.get?_eq_none.mp hp
        have := mapOpt_length _ _ _ hmap
        omega
      | some v =>
        rw [hv] at hp
        exact ⟨v, rfl, by simpa using hp⟩

/-- Witness for C2 (amended): the concrete way member of relation 30. -/
theorem C2_member_resolution_timestamps_witness :
    ({ type := "way", ref := 10, role := "outer" } : Member).type = "way"
    ∧ way_version_at_time api1 10 100 = some way10v1
    ∧ ((∀ (r : Relation) (id version : Int),
          get_osm_object api1 (.relation r) id version = none)
       ∧ (∀ parts, member_to_parts api1 100
            { type := "way", ref := 10, role := "outer" } = some parts →
          parts.1.length = way10v1.nds.length
          ∧ ∀ i nd, way10v1.nds.get? i = some nd →
              ∃ v, node_version_at_time api1 nd way10v1.timestamp = some v ∧
                parts.1.get? i = some (nd_leaf nd v))) := by
  refine ⟨rfl, by decide, ?_⟩
  exact C2_member_resolution_timestamps api1 100
    { type := "way", ref := 10, role := "outer" } rfl way10v1 (by decide)

/-- Counterexample to C3 as stated.  Way 11 has the single node 5, whose
version at the way's timestamp has lat 10 and lon 20.  The produced geometry
element is the two-component pair `(20, 10)` — longitude first — not the
triple `(point_id, lat, lon)`: it is not ordered `(lat, lon)`, and the point
id 5 appears in neither component. -/
theorem C3_counterexample :
    get_osm_object api1 (OsmThing.way way11v1) 11 1 = some out11
    ∧ out11.nodes = some [5]
    ∧ out11.geometry = some [(20, 10)]
    ∧ node_version_at_time api1 5 way11v1.timestamp = some node5v1
    ∧ node5v1.lat = 10 ∧ node5v1.lon = 20
    ∧ ((20 : Int), (10 : Int)) ≠ ((10 : Int), (20 : Int))
    ∧ (20 : Int) ≠ 5 ∧ (10 : Int) ≠ 5 := by
  decide

/-- C3 amended: for every backfilled line, the resulting geometry is an
ordered sequence whose `i`-th element is the *pair* `(lon, lat)` — longitude
first, with no point id component — taken from the version of the `i`-th
entry of the line's node list resolved at the line's timestamp; the point
ids themselves are carried separately in the `nodes` field. -/
theorem C3_line_geometry (a : Api) (w : Way) (id version : Int)
    (data : Way) (out : OsmOutput)
    (hget : a.get_way id version = some data)
    (hout : get_osm_object a (.way w) id version = some out) :
    ∃ g, out.geometry = some g ∧ g.length = data.nds.length
      ∧ ∀ i nd, data.nds.get? i = some nd →
          ∃ v, node_version_at_time a nd data.timestamp = some v ∧
            g.get? i = some (v.lon, v.lat) := by
  rw [get_osm_object_way_eq a w id version data hget] at hout
  cases hg : get_geom_at_timestamp a data.nds data.timestamp with
  | none => rw [hg] at hout; exact absurd hout (by simp)
  | some g =>
    rw [hg] at hout
    simp only [Option.map_some', Option.some.injEq] at hout
    obtain ⟨hlen, hpt⟩ := geom_pointwise _ _ _ g hg
    refine ⟨g, ?_, hlen, hpt⟩
    rw [← hout]

/-- Witness for C3 (amended): backfilling way 11 on the concrete store. -/
theorem C3_line_geometry_witness :
    api1.get_way 11 1 = some way11v1
    ∧ get_osm_object api1 (OsmThing.way way11v1) 11 1 = some out11
    ∧ ∃ g, out11.geometry = some g ∧ g.length = way11v1.nds.length
        ∧ ∀ i nd, way11v1.nds.get? i = some nd →
            ∃ v, node_version_at_time api1 nd way11v1.timestamp = some v ∧
              g.get? i = some (v.lon, v.lat) := by
  refine ⟨by decide, by decide, ?_⟩
  exact C3_line_geometry api1 way11v1 11 1 way11v1 out11 (by decide) (by decide)

/-- Counterexample to C4 as stated.  Relation 32 (timestamp 100) has the
single node member 1, and the resolver at the polygon's timestamp yields
node 1's version 2 with lat 3, lon 4 — yet nothing is attached to any
member in the output, because there is no output: the backfiller used for
output, `get_osm_object`, fails on every relation (`TypeError` at the
string subscript `data['members']`, line 165, before any member is
processed).  The resolved (lat, lon) the claim requires never appears. -/
theorem C4_counterexample :
    api1.get_relation 32 1 = some rel32v1
    ∧ rel32v1.members = [{ type := "node", ref := 1, role := "pt" }]
    ∧ node_version_at_time api1 1 rel32v1.timestamp = some node1v2
    ∧ node1v2.lat = 3 ∧ node1v2.lon = 4
    ∧ get_osm_object api1 (OsmThing.relation rel32v1) 32 1 = none := by
  decide

/-- C4 amended: for a point member of a polygon, the backfiller used for
output, `get_osm_object` (called by `process_changeset`), never attaches
the resolved coordinates: its relation branch fails for every store and
every input before emitting any member (`TypeError` from
string-subscripting the immutable pyosm model at `data['members']`).  Only
the XML backfiller `thing_to_element`, which no code path calls, behaves as
the claim describes: it resolves the point member at the polygon's
timestamp and attaches the resolved lat/lon to the member element. -/
theorem C4_node_member_handling (a : Api) (poly_ts : Int) (m : Member)
    (hty : m.type = "node") :
    (∀ (r : Relation) (id version : Int),
        get_osm_object a (.relation r) id version = none)
    ∧ ∀ v, node_version_at_time a m.ref poly_ts = some v →
        member_to_parts a poly_ts m =
          some ([], { name := "member",
                      attrs := [("type", m.type), ("ref", toString m.ref),
                                ("role", m.role), ("lat", toString v.lat),
                                ("lon", toString v.lon)] }, []) := by
  constructor
  · intro r id version
    exact get_osm_object_relation_none a r id version
  · intro v hv
    unfold member_to_parts
    rw [hty]
    rw [if_pos rfl, hv]
    rfl

/-- Witness for C4 (amended): the concrete node member of relation 31,
whose resolution at timestamp 100 succeeds (version 2 of node 1). -/
theorem C4_node_member_handling_witness :
    ({ type := "node", ref := 1, role := "y" } : Member).type = "node"
    ∧ node_version_at_time api1 1 100 = some node1v2
    ∧ ((∀ (r : Relation) (id version : Int),
          get_osm_object api1 (.relation r) id version = none)
       ∧ ∀ v, node_version_at_time api1 1 100 = some v →
          member_to_parts api1 100 { type := "node", ref := 1, role := "y" } =
            some ([], { name := "member",
                        attrs := [("type", "node"), ("ref", toString (1 : Int)),
                                  ("role", "y"), ("lat", toString v.lat),
                                  ("lon", toString v.lon)] }, [])) := by
  refine ⟨rfl, by decide, ?_⟩
  exact C4_node_member_handling api1 100 { type := "node", ref := 1, role := "y" } rfl

/-- Counterexample to C5 as stated.  Relation 31 has a nested-relation
member followed by a node member.  Backfilling it through `get_osm_object`
(the backfiller used by `process_changeset`) fails outright — the relation
branch raises `TypeError` at the string subscript `data['members']`
(line 165) before any member is processed — so the nested-relation member
does not appear in any output, no "unresolved" indicator or warning-level
signal exists, and the sibling node member is not processed either. -/
theorem C5_counterexample :
    api1.get_relation 31 1 = some rel31v1
    ∧ rel31v1.members =
        [{ type := "relation", ref := 9, role := "x" },
         { type := "node", ref := 1, role := "y" }]
    ∧ get_osm_object api1 (OsmThing.relation rel31v1) 31 1 = none := by
  decide

/-- C5 amended: on the output path (`get_osm_object`, used by
`process_changeset`) backfilling any polygon fails entirely — for one with
a nested-relation member just as for any other (`TypeError` at
`data['members']` before any member is processed) — so the member never
appears in output and no warning is emitted there.  In the XML backfiller
`thing_to_element`, which no code path calls, the claim's behaviour holds:
a nested-relation member never fails for any store, it is recorded as the
bare `(type, ref, role)` member element — distinguished only by its copied
`type` attribute, not by a dedicated unresolved marker — the warning-level
signal "Not fetching relation parts for member relation" is logged, and
processing of the remaining sibling members continues: a completed member
loop yields exactly one part per input member, in order. -/
theorem C5_relation_member_handling (a : Api) (poly_ts : Int) (m : Member)
    (hty : m.type = "relation") (r : Relation) (id version : Int) :
    get_osm_object a (.relation r) id version = none
    ∧ member_to_parts a poly_ts m =
        some ([], { name := "member",
                    attrs := [("type", m.type), ("ref", toString m.ref),
                              ("role", m.role)] },
              ["Not fetching relation parts for member relation"])
    ∧ ∀ (rel : Relation) (parts : List (List XmlLeaf × XmlLeaf × List String)),
        mapOpt (member_to_parts a rel.timestamp) rel.members = some parts →
        parts.length = rel.members.length := by
  refine ⟨get_osm_object_relation_none a r id version, ?_, ?_⟩
  · unfold member_to_parts
    rw [hty]
    rw [if_neg (by decide : ¬ ("relation" : String) = "node"),
      if_neg (by decide : ¬ ("relation" : String) = "way"), if_pos rfl]
  · intro rel parts hparts
    exact mapOpt_length _ _ _ hparts

/-- Witness for C5 (amended): the nested-relation member of relation 31. -/
theorem C5_relation_member_handling_witness :
    ({ type := "relation", ref := 9, role := "x" } : Member).type = "relation"
    ∧ api1.get_relation 31 1 = some rel31v1
    ∧ (get_osm_object api1 (.relation rel31v1) 31 1 = none
       ∧ member_to_parts api1 100 { type := "relation", ref := 9, role := "x" } =
          some ([], { name := "member",
                      attrs := [("type", "relation"), ("ref", toString (9 : Int)),
                                ("role", "x")] },
                ["Not fetching relation parts for member relation"])
       ∧ ∀ (rel : Relation) (parts : List (List XmlLeaf × XmlLeaf × List String)),
           mapOpt (member_to_parts api1 rel.timestamp) rel.members = some parts →
           parts.length = rel.members.length) := by
  refine ⟨rfl, by decide, ?_⟩
  exact C5_relation_member_handling api1 100
    { type := "relation", ref := 9, role := "x" } rfl rel31v1 31 1

/-- C6: if any point referenced by a way being backfilled resolves to
NotFound (`none`), then the geometry computation fails, the backfill of that
entity fails, the whole `process_changeset` call for a changeset containing
that change fails, and the CLI path writes no output file — no partial
result is produced. -/
theorem C6_resolution_failure_aborts (a : Api) (cid : Int)
    (changes : List (String × OsmThing)) (verb : String) (w data : Way)
    (nd : Int)
    (hdl : a.get_changeset_download cid = some changes)
    (hmem : (verb, OsmThing.way w) ∈ changes)
    (hget : a.get_way w.id w.version = some data)
    (hnd : nd ∈ data.nds)
    (hres : node_version_at_time a nd data.timestamp = none) :
    get_geom_at_timestamp a data.nds data.timestamp = none
    ∧ get_osm_object a (.way w) w.id w.version = none
    ∧ process_changeset a cid = none
    ∧ cli_main a cid = none := by
  have hgeom := geom_fails a data.nds data.timestamp hnd hres
  have hobj : get_osm_object a (.way w) w.id w.version = none := by
    rw [get_osm_object_way_eq a w w.id w.version data hget, hgeom]
    rfl
  have hpc : process_changeset a cid = none := by
    apply process_changeset_fail a cid changes hdl
    exact mapOpt_eq_none _ _ hmem (process_one_change_none a verb (.way w) hobj)
  exact ⟨hgeom, hobj, hpc, by rw [cli_main, hpc]; rfl⟩

/-- Witness for C6: changeset 99 contains the creation of way 12
(timestamp 100), whose node 7 only comes into existence at timestamp 200,
so its resolution yields `none` and the whole request aborts. -/
theorem C6_resolution_failure_aborts_witness :
    api1.get_changeset_download 99 = some [("create", OsmThing.way way12v1)]
    ∧ (7 : Int) ∈ way12v1.nds
    ∧ node_version_at_time api1 7 way12v1.timestamp = none
    ∧ (get_geom_at_timestamp api1 way12v1.nds way12v1.timestamp = none
       ∧ get_osm_object api1 (.way way12v1) way12v1.id way12v1.version = none
       ∧ process_changeset api1 99 = none
       ∧ cli_main api1 99 = none) := by
  refine ⟨by decide, by decide, by decide, ?_⟩
  exact C6_resolution_failure_aborts api1 99 [("create", OsmThing.way way12v1)]
    "create" way12v1 way12v1 7 (by decide) (by decide) (by decide) (by decide)
    (by decide)

/-- C7: for a change whose verb is `modify` or `delete`, the assembler
unconditionally attempts the `old` backfill at `version - 1` (first conjunct:
the loop body is exactly that fetch, not a skip); and when `version - 1 < 1`
— assuming the upstream store only holds versions `≥ 1` — that fetch fails,
so the whole `process_changeset` call fails rather than skipping the
change. -/
theorem C7_old_version_underflow_fatal (a : Api) (cid : Int)
    (changes : List (String × OsmThing)) (verb : String) (obj : OsmThing)
    (hdl : a.get_changeset_download cid = some changes)
    (hmem : (verb, obj) ∈ changes)
    (hverb : verb = "modify" ∨ verb = "delete")
    (hver : obj.version - 1 < 1)
    (hnode : ∀ id v n, a.get_node id v = some n → 1 ≤ v)
    (hway : ∀ id v w, a.get_way id v = some w → 1 ≤ v)
    (hrel : ∀ id v r, a.get_relation id v = some r → 1 ≤ v) :
    process_one_change a verb obj =
      ((get_osm_object a obj obj.id (obj.version - 1)).bind fun old_obj =>
        (get_osm_object a obj obj.id obj.version).map fun new_obj =>
          ({ old := some old_obj, new := new_obj } : Change))
    ∧ get_osm_object a obj obj.id (obj.version - 1) = none
    ∧ process_changeset a cid = none := by
  have h1 : process_one_change a verb obj =
      ((get_osm_object a obj obj.id (obj.version - 1)).bind fun old_obj =>
        (get_osm_object a obj obj.id obj.version).map fun new_obj =>
          ({ old := some old_obj, new := new_obj } : Change)) := by
    unfold process_one_change
    rw [if_pos hverb]
  have h2 : get_osm_object a obj obj.id (obj.version - 1) = none := by
    cases obj with
    | node n =>
      unfold get_osm_object
      cases hg : a.get_node (OsmThing.node n).id ((OsmThing.node n).version - 1) with
      | none => rfl
      | some x =>
        have := hnode _ _ _ hg
        simp only [OsmThing.version] at this hver
        omega
    | way w =>
      unfold get_osm_object
      cases hg : a.get_way (OsmThing.way w).id ((OsmThing.way w).version - 1) with
      | none => rfl
      | some x =>
        have := hway _ _ _ hg
        simp only [OsmThing.version] at this hver
        omega
    | relation r =>
      unfold get_osm_object
      cases hg : a.get_relation (OsmThing.relation r).id
          ((OsmThing.relation r).version - 1) with
      | none => rfl
      | some x =>
        have := hrel _ _ _ hg
        simp only [OsmThing.version] at this hver
        omega
  have hpo : process_one_change a verb obj = none := by
    rw [h1, h2]
    rfl
  exact ⟨h1, h2,
    process_changeset_fail a cid changes hdl (mapOpt_eq_none _ _ hmem hpo)⟩

/-- Witness for C7: on a well-formed store holding no version below 1,
changeset 98 reports the deletion of node 400 at version 1, so the `old`
backfill targets version 0 and the whole call fails. -/
theorem C7_old_version_underflow_fatal_witness :
    api7.get_changeset_download 98 = some [("delete", OsmThing.node nodeD)]
    ∧ (OsmThing.node nodeD).version - 1 < 1
    ∧ (process_one_change api7 "delete" (OsmThing.node nodeD) =
        ((get_osm_object api7 (OsmThing.node nodeD) (OsmThing.node nodeD).id
            ((OsmThing.node nodeD).version - 1)).bind fun old_obj =>
          (get_osm_object api7 (OsmThing.node nodeD) (OsmThing.node nodeD).id
              (OsmThing.node nodeD).version).map fun new_obj =>
            ({ old := some old_obj, new := new_obj } : Change))
       ∧ get_osm_object api7 (OsmThing.node nodeD) (OsmThing.node nodeD).id
          ((OsmThing.node nodeD).version - 1) = none
       ∧ process_changeset api7 98 = none) := by
  refine ⟨by decide, by decide, ?_⟩
  exact C7_old_version_underflow_fatal api7 98 [("delete", OsmThing.node nodeD)]
    "delete" (OsmThing.node nodeD) (by decide) (by decide) (Or.inr rfl)
    (by decide)
    (fun id v n h => by simp [api7] at h)
    (fun id v w h => by simp [api7] at h)
    (fun id v r h => by simp [api7] at h)

/-- C8: in a successful `process_changeset` result, the `i`-th change has an
`old` entry iff the `i`-th downloaded change's verb is `modify` or `delete`,
and its `new` entry is always present and equal to the entity backfilled at
the change's reported version. -/
theorem C8_old_new_presence (a : Api) (cid : Int)
    (changes : List (String × OsmThing)) (res : ChangesetResult)
    (hdl : a.get_changeset_download cid = some changes)
    (hres : process_changeset a cid = some res) :
    res.changes.length = changes.length
    ∧ ∀ i verb obj c, changes.get? i = some (verb, obj) →
        res.changes.get? i = some c →
        ((c.old ≠ none ↔ (verb = "modify" ∨ verb = "delete"))
         ∧ get_osm_object a obj obj.id obj.version = some c.new) := by
  obtain ⟨hlen, hpt⟩ := changes_pointwise a cid changes res hdl hres
  refine ⟨hlen, ?_⟩
  intro i verb obj c hci hresi
  obtain ⟨c2, hc2, hpo⟩ := hpt i verb obj hci
  rw [hresi] at hc2
  obtain rfl : c = c2 := Option.some.inj hc2
  unfold process_one_change at hpo
  by_cases hv : verb = "modify" ∨ verb = "delete"
  · rw [if_pos hv] at hpo
    cases hold : get_osm_object a obj obj.id (obj.version - 1) with
    | none => rw [hold] at hpo; exact absurd hpo (by simp)
    | some o =>
      rw [hold] at hpo
      simp only [Option.some_bind] at hpo
      cases hnew : get_osm_object a obj obj.id obj.version with
      | none => rw [hnew] at hpo; exact absurd hpo (by simp)
      | some nobj =>
        rw [hnew] at hpo
        simp only [Option.map_some', Option.some.injEq] at hpo
        rw [← hpo]
        exact ⟨by simp [hv], rfl⟩
  · rw [if_neg hv] at hpo
    cases hnew : get_osm_object a obj obj.id obj.version with
    | none => rw [hnew] at hpo; exact absurd hpo (by simp)
    | some nobj =>
      rw [hnew] at hpo
      simp only [Option.map_some', Option.some.injEq] at hpo
      rw [← hpo]
      exact ⟨by simp [hv], rfl⟩

/-- Witness for C8: the concrete changeset 97, a single `create` change. -/
theorem C8_old_new_presence_witness :
    api1.get_changeset_download 97 = some [("create", OsmThing.node node5v1)]
    ∧ process_changeset api1 97 = some res97
    ∧ (res97.changes.length = [("create", OsmThing.node node5v1)].length
       ∧ ∀ i verb obj c,
           [("create", OsmThing.node node5v1)].get? i = some (verb, obj) →
           res97.changes.get? i = some c →
           ((c.old ≠ none ↔ (verb = "modify" ∨ verb = "delete"))
            ∧ get_osm_object api1 obj obj.id obj.version = some c.new)) := by
  refine ⟨by decide, by decide, ?_⟩
  exact C8_old_new_presence api1 97 [("create", OsmThing.node node5v1)] res97
    (by decide) (by decide)

/-- C9: ordering is preserved end to end.  A successful geometry computation
yields exactly one coordinate pair per node id, positionally (`g.get? i`
comes from `nds.get? i`); and a successful `process_changeset` emits exactly
one output change per downloaded change, with output position `i` produced
from input position `i` — no re-sorting. -/
theorem C9_order_preservation (a : Api) (cid : Int)
    (changes : List (String × OsmThing)) (res : ChangesetResult)
    (hdl : a.get_changeset_download cid = some changes)
    (hres : process_changeset a cid = some res) :
    (∀ (nds : List Int) (ts : Int) (g : List (Int × Int)),
        get_geom_at_timestamp a nds ts = some g →
        g.length = nds.length
        ∧ ∀ i nd, nds.get? i = some nd →
            ∃ v, node_version_at_time a nd ts = some v ∧
              g.get? i = some (v.lon, v.lat))
    ∧ res.changes.length = changes.length
    ∧ ∀ i verb obj, changes.get? i = some (verb, obj) →
        ∃ c, res.changes.get? i = some c ∧
          process_one_change a verb obj = some c := by
  obtain ⟨hlen, hpt⟩ := changes_pointwise a cid changes res hdl hres
  exact ⟨fun nds ts g hg => geom_pointwise a nds ts g hg, hlen, hpt⟩

/-- Witness for C9: the concrete changeset 97. -/
theorem C9_order_preservation_witness :
    api1.get_changeset_download 97 = some [("create", OsmThing.node node5v1)]
    ∧ process_changeset api1 97 = some res97
    ∧ ((∀ (nds : List Int) (ts : Int) (g : List (Int × Int)),
          get_geom_at_timestamp api1 nds ts = some g →
          g.length = nds.length
          ∧ ∀ i nd, nds.get? i = some nd →
              ∃ v, node_version_at_time api1 nd ts = some v ∧
                g.get? i = some (v.lon, v.lat))
       ∧ res97.changes.length = [("create", OsmThing.node node5v1)].length
       ∧ ∀ i verb obj,
           [("create", OsmThing.node node5v1)].get? i = some (verb, obj) →
           ∃ c, res97.changes.get? i = some c ∧
             process_one_change api1 verb obj = some c) := by
  refine ⟨by decide, by decide, ?_⟩
  exact C9_order_preservation api1 97 [("create", OsmThing.node node5v1)] res97
    (by decide) (by decide)

/-- C10 (implicit alignment invariant): every successful way backfill
carries both a `nodes` field — the raw ordered node-id list of the fetched
way — and a `geometry` field of exactly the same length, whose `i`-th entry
is the resolved coordinate pair of the `i`-th node id. -/
theorem C10_nodes_geometry_alignment (a : Api) (w : Way) (id version : Int)
    (data : Way) (out : OsmOutput)
    (hget : a.get_way id version = some data)
    (hout : get_osm_object a (.way w) id version = some out) :
    out.nodes = some data.nds
    ∧ ∃ g, out.geometry = some g ∧ g.length = data.nds.length
        ∧ ∀ i nd, data.nds.get? i = some nd →
            ∃ v, node_version_at_time a nd data.timestamp = some v ∧
              g.get? i = some (v.lon, v.lat) := by
  rw [get_osm_object_way_eq a w id version data hget] at hout
  cases hg : get_geom_at_timestamp a data.nds data.timestamp with
  | none => rw [hg] at hout; exact absurd hout (by simp)
  | some g =>
    rw [hg] at hout
    simp only [Option.map_some', Option.some.injEq] at hout
    obtain ⟨hlen, hpt⟩ := geom_pointwise _ _ _ g hg
    rw [← hout]
    exact ⟨rfl, g, rfl, hlen, hpt⟩

/-- Witness for C10: backfilling way 10 on the concrete store. -/
theorem C10_nodes_geometry_alignment_witness :
    api1.get_way 10 1 = some way10v1
    ∧ get_osm_object api1 (OsmThing.way way10v1) 10 1 = some
        ((get_osm_object api1 (OsmThing.way way10v1) 10 1).getD default)
    ∧ (((get_osm_object api1 (OsmThing.way way10v1) 10 1).getD default).nodes
        = some way10v1.nds
       ∧ ∃ g, ((get_osm_object api1 (OsmThing.way way10v1) 10 1).getD
            default).geometry = some g
          ∧ g.length = way10v1.nds.length
          ∧ ∀ i nd, way10v1.nds.get? i = some nd →
              ∃ v, node_version_at_time api1 nd way10v1.timestamp = some v ∧
                g.get? i = some (v.lon, v.lat)) := by
  refine ⟨by decide, by decide, ?_⟩
  exact C10_nodes_geometry_alignment api1 way10v1 10 1 way10v1
    ((get_osm_object api1 (OsmThing.way way10v1) 10 1).getD default)
    (by decide) (by decide)

end Osm
